import Mathlib

/-!
Shallow embedding of the lifeblood-ops-assistant retrieval pipeline
(chunking, snippet truncation, relevance filtering, RAG orchestration,
vector-store upsert/query, embeddings providers) together with proofs of
the behavioural properties of those functions.

Modelling conventions:
- Python `str` values that are inspected character by character are
  modelled as `List Char`; `str.strip()` is `stripChars` (Python strips a
  slightly larger Unicode whitespace set than `Char.isWhitespace`; the
  difference is irrelevant to the properties proved here).
- Python floats are modelled as `ℚ`.  The float comparison
  `last_period > max_length * 0.7` in `_create_snippet` is modelled as
  `10 * last_period > 7 * max_length`, which agrees with the double
  computation at the parameter values used (for `max_length = 100` the
  double product `100 * 0.7` evaluates to exactly `70.0`).
- A Python function that can raise is modelled as returning
  `Except String α`; `Except.error` is a raised exception.
- External capabilities (vector search, LLM, embedding backend) are
  modelled as explicit behaviour arguments, an `Except` value or a
  function returning one, so a theorem quantifying over them covers every
  backend behaviour including one that raises.
-/

/-- Raised-or-returned outcomes are compared in counterexample theorems,
so equality of `Except` values must be decidable. -/
instance {ε α : Type} [DecidableEq ε] [DecidableEq α] :
    DecidableEq (Except ε α) := fun x y =>
  match x, y with
  | .ok a, .ok b =>
    if h : a = b then .isTrue (by rw [h])
    else .isFalse (by intro hc; cases hc; exact h rfl)
  | .ok _, .error _ => .isFalse (by intro hc; cases hc)
  | .error _, .ok _ => .isFalse (by intro hc; cases hc)
  | .error a, .error b =>
    if h : a = b then .isTrue (by rw [h])
    else .isFalse (by intro hc; cases hc; exact h rfl)

/-- Model of Python `str.strip()`: drop whitespace from both ends. -/
def stripChars (s : List Char) : List Char :=
  ((s.dropWhile Char.isWhitespace).reverse.dropWhile Char.isWhitespace).reverse

/-- Model of Python `str.rfind(c)`: index of the last occurrence of `c`,
`none` when absent (Python returns `-1`, which makes every `>` guard in
`_create_snippet` false, exactly as the `none` case does here). -/
def rfindIdx (s : List Char) (c : Char) : Option Nat :=
  (s.reverse.findIdx? (· = c)).map (fun j => s.length - 1 - j)

/-- The chunk-id scheme of `chunk_document`: `f"{doc_id}_chunk_{index}"`. -/
def mkChunkId (docId : String) (idx : Nat) : String :=
  docId ++ "_chunk_" ++ toString idx

/-- Document record consumed by `chunk_document`
(`{'doc_id': ..., 'title': ..., 'text': ...}`). -/
structure Document where
  doc_id : String
  title : String
  text : List Char
deriving DecidableEq

/-- Chunk record produced by `chunk_document`. -/
structure Chunk where
  doc_id : String
  chunk_id : String
  start : Nat
  «end» : Nat
  text : List Char
  title : String
deriving DecidableEq

/-- The chunk record one loop iteration of `chunk_document` appends:
window start, window end `e = min(start + chunk_size, len(text))`, and
the stripped window text `ct`. -/
def mkChunk (docId title : String) (idx start e : Nat) (ct : List Char) : Chunk :=
  { doc_id := docId, chunk_id := mkChunkId docId idx, start := start,
    «end» := e, text := ct, title := title }

/-- The `while start < text_length` loop of `chunk_document`
(`src/.../utils/chunking.py`).  Each iteration takes the window
`[start, min (start + size) text.length)`, strips it, emits it when the
stripped text is non-empty (consuming one chunk index), advances `start`
by `step` and stops once the window end has reached the end of the text.
The guard `0 < step` is the termination condition the source establishes
before entering the loop by raising on `step_size <= 0`. -/
def chunkLoop (text : List Char) (docId title : String) (size step : Nat)
    (start idx : Nat) : List Chunk :=
  if h : start < text.length ∧ 0 < step then
    if min (start + size) text.length < text.length then
      if stripChars ((text.drop start).take size) = [] then
        chunkLoop text docId title size step (start + step) idx
      else
        mkChunk docId title idx start (min (start + size) text.length)
            (stripChars ((text.drop start).take size)) ::
          chunkLoop text docId title size step (start + step) (idx + 1)
    else
      if stripChars ((text.drop start).take size) = [] then []
      else
        [mkChunk docId title idx start (min (start + size) text.length)
          (stripChars ((text.drop start).take size))]
  else []
termination_by text.length - start
decreasing_by
  all_goals (obtain ⟨h1, h2⟩ := h; omega)

/-- Model of `chunk_document(document, chunk_size_chars, overlap_chars)`:
blank text returns `[]`; text no longer than the chunk size is a single
untrimmed chunk; otherwise the configuration is validated
(`step_size <= 0` raises) and the sliding-window loop runs.  Sizes are
natural numbers, so the Python check `step_size <= 0` is
`chunk_size_chars ≤ overlap_chars`. -/
def chunk_document (document : Document) (chunk_size_chars overlap_chars : Nat) :
    Except String (List Chunk) :=
  if stripChars document.text = [] then .ok []
  else if document.text.length ≤ chunk_size_chars then
    .ok [{ doc_id := document.doc_id, chunk_id := mkChunkId document.doc_id 0,
           start := 0, «end» := document.text.length, text := document.text,
           title := document.title }]
  else if chunk_size_chars ≤ overlap_chars then
    .error "overlap_chars must be smaller than chunk_size_chars"
  else
    .ok (chunkLoop document.text document.doc_id document.title
          chunk_size_chars (chunk_size_chars - overlap_chars) 0 0)

/-- Model of `RAGPipeline._create_snippet(text, max_length)`: strip, return
short text as-is, otherwise prefer a sentence cut strictly after
`0.7 * max_length`, then a word cut strictly after `0.7 * max_length`
with an ellipsis, else a hard cut at `max_length - 3` with an ellipsis. -/
def create_snippet (text : List Char) (maxLength : Nat) : List Char :=
  let t := stripChars text
  if t.length ≤ maxLength then t
  else
    let truncated := t.take maxLength
    let lastPeriod := rfindIdx truncated '.'
    let lastSpace := rfindIdx truncated ' '
    match lastPeriod, lastSpace with
    | some p, _ =>
      if 10 * p > 7 * maxLength then t.take (p + 1)
      else
        match lastSpace with
        | some sp =>
          if 10 * sp > 7 * maxLength then t.take sp ++ "...".toList
          else t.take (maxLength - 3) ++ "...".toList
        | none => t.take (maxLength - 3) ++ "...".toList
    | none, some sp =>
      if 10 * sp > 7 * maxLength then t.take sp ++ "...".toList
      else t.take (maxLength - 3) ++ "...".toList
    | none, none => t.take (maxLength - 3) ++ "...".toList

/-- Citation dictionary produced by
`RAGPipeline._convert_langchain_docs_to_citations`. -/
structure Citation where
  doc_id : String
  title : Option String
  chunk_id : Option String
  snippet : List Char
  score : ℚ
deriving DecidableEq

/-- Model of `RAGPipeline._filter_meaningful_citations(citations, min_score)`:
drop a citation when its stripped snippet is empty, its score is below
`min_score`, or its stripped snippet is shorter than 20 characters; keep
the rest in order.  (Every element of the typed list is a citation record,
so the `isinstance` guard of the source is always true here.) -/
def filter_meaningful_citations (minScore : ℚ) : List Citation → List Citation
  | [] => []
  | c :: rest =>
    let s := stripChars c.snippet
    if s = [] then filter_meaningful_citations minScore rest
    else if c.score < minScore then filter_meaningful_citations minScore rest
    else if s.length < 20 then filter_meaningful_citations minScore rest
    else c :: filter_meaningful_citations minScore rest

/-- The keep-condition of `_filter_meaningful_citations`, as one boolean. -/
def meaningfulKeep (minScore : ℚ) (c : Citation) : Bool :=
  !decide (stripChars c.snippet = []) && !decide (c.score < minScore) &&
    !decide ((stripChars c.snippet).length < 20)

/-- A LangChain `Document` paired metadata view, as consumed by
`_convert_langchain_docs_to_citations`: the page content plus the
metadata entries the pipeline reads (each may be missing). -/
structure LCDocument where
  page_content : List Char
  doc_id : Option String
  title : Option String
  chunk_id : Option String
deriving DecidableEq

/-- Model of `_convert_langchain_docs_to_citations` applied to one
`(document, score)` pair. -/
def convert_doc_to_citation (d : LCDocument) (score : ℚ) : Citation :=
  { doc_id := d.doc_id.getD "unknown", title := d.title,
    chunk_id := d.chunk_id, snippet := create_snippet d.page_content 200,
    score := score }

/-- Model of a LangChain LLM response object: the `text` attribute when
present, the `content` attribute when present, and its `str()` rendering. -/
structure LLMResponse where
  textAttr : Option (List Char)
  contentAttr : Option (List Char)
  strRepr : List Char
deriving DecidableEq

/-- The response-text extraction of `RAGPipeline.ask` step 5:
`response.text` when present and non-empty, else `response.content` when
present and non-empty, else `str(response)`. -/
def extractLLMText (r : LLMResponse) : List Char :=
  match r.textAttr with
  | some t =>
    if t ≠ [] then t
    else match r.contentAttr with
      | some c => if c ≠ [] then c else r.strRepr
      | none => r.strRepr
  | none =>
    match r.contentAttr with
    | some c => if c ≠ [] then c else r.strRepr
    | none => r.strRepr

/-- One external-capability invocation made by `RAGPipeline.ask`. -/
inductive CapCall where
  | retrieve
  | buildPrompt
  | llmInvoke
deriving DecidableEq

/-- Result dictionary returned by `RAGPipeline.ask`. -/
structure AskResult where
  answer : List Char
  citations : List Citation
deriving DecidableEq

/-- Case-insensitive substring test used by the retrieval error handler
(`"does not exist" in str(e).lower()` and friends). -/
def lowerContains (hay needle : String) : Bool :=
  decide (List.IsInfix needle.toList (hay.toList.map Char.toLower))

def blankQuestionAnswer : List Char :=
  "Please provide a specific question for me to answer.".toList

def noDataAnswer : List Char :=
  ("I don't have enough information in the docs to answer that. " ++
   "Please make sure documents have been ingested using the /ingest endpoint first.").toList

def searchErrorAnswer : List Char :=
  "I encountered an error searching for relevant information. Please try again.".toList

def insufficientAnswer : List Char :=
  "I don't have enough information in the docs to answer that.".toList

def prepErrorAnswer : List Char :=
  "I encountered an error preparing the response. Please try again.".toList

def genErrorAnswer : List Char :=
  "I encountered an error generating the response. Please try again.".toList

def emptyLLMAnswer : List Char :=
  "I was unable to generate a response.".toList

def unexpectedErrorAnswer : List Char :=
  "I encountered an unexpected error. Please try again.".toList

/-- The fixed fallback answers `RAGPipeline.ask` can return. -/
def fallbackAnswers : List (List Char) :=
  [blankQuestionAnswer, noDataAnswer, searchErrorAnswer, insufficientAnswer,
   prepErrorAnswer, genErrorAnswer, unexpectedErrorAnswer]

/-- Model of `RAGPipeline.ask(question, mode, top_k)`.  External behaviour
is passed in explicitly: `retrieval` is the outcome of the vector-store
similarity search (the `(document, score)` list, or the message of a
raised exception), `promptRes` the outcome of `build_rag_prompt`,
`llmRes` the outcome of `self.llm.invoke`, and `uncaught` an exception
raised by any other code inside the orchestrator body, which the outer
`except Exception` converts into the generic fallback.  The second
component records which capabilities were invoked, in order.  The
function is total: no branch re-raises, which is the outer boundary
guarantee of the source. -/
def ask (question : List Char)
    (retrieval : Except String (List (LCDocument × ℚ)))
    (promptRes : Except String (List Char))
    (llmRes : Except String LLMResponse)
    (uncaught : Option String) : AskResult × List CapCall :=
  if stripChars question = [] then
    ({ answer := blankQuestionAnswer, citations := [] }, [])
  else
    match uncaught with
    | some _ => ({ answer := unexpectedErrorAnswer, citations := [] }, [])
    | none =>
      match retrieval with
      | .error e =>
        if lowerContains e "does not exist" || lowerContains e "not found" ||
            lowerContains e "empty" then
          ({ answer := noDataAnswer, citations := [] }, [CapCall.retrieve])
        else
          ({ answer := searchErrorAnswer, citations := [] }, [CapCall.retrieve])
      | .ok docsWithScores =>
        let citations := docsWithScores.map fun d => convert_doc_to_citation d.1 d.2
        let meaningful := filter_meaningful_citations (1/100) citations
        if meaningful = [] then
          ({ answer := insufficientAnswer, citations := [] }, [CapCall.retrieve])
        else
          match promptRes with
          | .error _ =>
            ({ answer := prepErrorAnswer, citations := [] },
             [CapCall.retrieve, CapCall.buildPrompt])
          | .ok _ =>
            match llmRes with
            | .error _ =>
              ({ answer := genErrorAnswer, citations := [] },
               [CapCall.retrieve, CapCall.buildPrompt, CapCall.llmInvoke])
            | .ok resp =>
              let t := extractLLMText resp
              let answer := if t ≠ [] then stripChars t else emptyLLMAnswer
              ({ answer := answer, citations := meaningful },
               [CapCall.retrieve, CapCall.buildPrompt, CapCall.llmInvoke])

/-- Input chunk dictionary as read by `ChromaVectorStore.upsert_chunks`:
every field is looked up with `.get`, so each may be missing. -/
structure ChunkIn where
  chunk_id : Option String
  text : Option String
  doc_id : Option String
  title : Option String
  start : Option Int
  «end» : Option Int
deriving DecidableEq

/-- One record as handed to `collection.upsert`: id, embedding, document
text and the metadata entries (the source drops `None` values from the
metadata dict; keeping them as `Option` here is the same information). -/
structure UpsertEntry where
  id : String
  embedding : List ℚ
  document : String
  metaDocId : Option String
  metaTitle : Option String
  metaStart : Option Int
  metaEnd : Option Int
deriving DecidableEq

/-- The persisted collection, keyed by chunk id. -/
abbrev Store := List (String × UpsertEntry)

/-- The preparation loop of `upsert_chunks`: walk the zipped
`(chunk, embedding)` pairs building the `ids`/`documents`/`metadatas`
lists, raising on a missing or empty `chunk_id` (Python truthiness:
`if not chunk_id`). -/
def buildEntries : List ChunkIn → List (List ℚ) → Except String (List UpsertEntry)
  | [], _ => .ok []
  | _, [] => .ok []
  | c :: cs, e :: es =>
    match c.chunk_id with
    | none => .error "Chunk missing required chunk_id field"
    | some cid =>
      if cid = "" then .error "Chunk missing required chunk_id field"
      else
        (buildEntries cs es).map
          (fun rest =>
            { id := cid, embedding := e, document := (c.text.getD ""),
              metaDocId := c.doc_id, metaTitle := c.title,
              metaStart := c.start, metaEnd := c.«end» } :: rest)

/-- Chroma upsert semantics for one entry: replace the record stored under
the same id, or append a new record. -/
def upsertOne (store : Store) (entry : UpsertEntry) : Store :=
  if store.any (fun kv => kv.1 = entry.id) then
    store.map (fun kv => if kv.1 = entry.id then (entry.id, entry) else kv)
  else store ++ [(entry.id, entry)]

/-- Chroma upsert semantics for a batch, applied in order. -/
def applyUpsert (store : Store) (entries : List UpsertEntry) : Store :=
  entries.foldl upsertOne store

/-- The mismatch message ValueError of `upsert_chunks`. -/
def mismatchMsg (nChunks nEmb : Nat) : String :=
  "Chunks count (" ++ toString nChunks ++ ") must match embeddings count (" ++
    toString nEmb ++ ")"

/-- Model of `ChromaVectorStore.upsert_chunks(chunks, embeddings)` acting
on a store state.  It returns the raised-or-ok outcome together with the
resulting store; every error path leaves the store untouched because the
single `collection.upsert` call happens only after all validation.  The
backend call itself is modelled as succeeding; the dimension-mismatch
recovery path of the source is backend behaviour outside the validation
properties proved here. -/
def upsert_chunks (chunks : List ChunkIn) (embeddings : List (List ℚ))
    (store : Store) : Except String Unit × Store :=
  if chunks = [] ∨ embeddings = [] then (.ok (), store)
  else if chunks.length ≠ embeddings.length then
    (.error (mismatchMsg chunks.length embeddings.length), store)
  else
    match buildEntries chunks embeddings with
    | .error e => (.error e, store)
    | .ok entries => (.ok (), applyUpsert store entries)

/-- The metadata entries `ChromaVectorStore.query` reads from one result. -/
structure RowMeta where
  doc_id : Option String
  title : Option String
  start : Option Int
  «end» : Option Int
deriving DecidableEq

/-- The retrieval-hit dictionary `ChromaVectorStore.query` returns. -/
structure RetrievalHit where
  doc_id : String
  title : Option String
  chunk_id : String
  text : List Char
  score : ℚ
  start : Option Int
  «end» : Option Int
deriving DecidableEq

/-- The distance-to-similarity conversion of `ChromaVectorStore.query`:
`score = max(0.0, min(1.0, 1.0 - distance))`. -/
def distanceToScore (distance : ℚ) : ℚ :=
  max 0 (min 1 (1 - distance))

/-- One zipped Chroma result row: `(text, metadata, distance, chunk_id)`
(`metadata` may be `None`). -/
abbrev QueryRow := List Char × Option RowMeta × ℚ × String

/-- The conversion of one Chroma result row into a retrieval hit. -/
def rowToHit (row : QueryRow) : RetrievalHit :=
  { doc_id := ((row.2.1).bind RowMeta.doc_id).getD "unknown",
    title := (row.2.1).bind RowMeta.title,
    chunk_id := row.2.2.2,
    text := row.1,
    score := distanceToScore row.2.2.1,
    start := (row.2.1).bind RowMeta.start,
    «end» := (row.2.1).bind RowMeta.«end» }

/-- Model of `ChromaVectorStore.query(query_embedding, top_k)`: empty
query embedding returns `[]`; a collection counted as empty returns `[]`
(`collectionCount = none` models a failing `count()` call, which the
source logs and ignores); otherwise each zipped backend result row is
converted to a hit with the clamped similarity score. -/
def chroma_query (queryEmbedding : List ℚ) (collectionCount : Option Nat)
    (rows : List QueryRow) : List RetrievalHit :=
  if queryEmbedding = [] then []
  else if collectionCount = some 0 then []
  else rows.map rowToHit

/-- Model of `FakeEmbeddingsProvider._text_to_embedding`, parametric in
the SHA-256 digest function (an opaque deterministic 32-byte hash):
entry `i` is `(digest[i % 32] / 255) * 2 - 1`. -/
def fake_text_to_embedding (digest : String → List Nat) (dim : Nat)
    (text : String) : List ℚ :=
  let h := digest text
  (List.range dim).map
    (fun i => ((h.getD (i % h.length) 0 : ℚ) / 255) * 2 - 1)

/-- Model of `FakeEmbeddingsProvider.embed_texts`. -/
def fake_embed_texts (digest : String → List Nat) (dim : Nat)
    (texts : List String) : List (List ℚ) :=
  if texts = [] then []
  else texts.map (fake_text_to_embedding digest dim)

/-- Model of `FakeEmbeddingsProvider.embed_query`. -/
def fake_embed_query (digest : String → List Nat) (dim : Nat)
    (text : String) : List ℚ :=
  fake_text_to_embedding digest dim text

/-- Model of `GeminiEmbeddingsProvider.embed_texts`, parametric in the
backend (`genai.embed_content`) behaviour per text.  Per the source, a
failing backend call is caught and a 768-entry zero vector is appended
in its place; the function never re-raises.  The second component is the
list of texts for which the backend was invoked, in order. -/
def gemini_embed_texts (backend : String → Except String (List ℚ))
    (texts : List String) : Except String (List (List ℚ)) × List String :=
  if texts = [] then (.ok [], [])
  else
    (.ok (texts.map fun t =>
        match backend t with
        | .ok v => v
        | .error _ => List.replicate 768 (0 : ℚ)),
     texts)

/-! Concrete instances used by the counterexample and witness theorems. -/

/-- A blank document: two whitespace characters. -/
def docBlank : Document := { doc_id := "b", title := "t", text := [' ', '\n'] }

/-- A one-character document, shorter than any positive chunk size. -/
def docShort : Document := { doc_id := "d", title := "t", text := ['a'] }

/-- A six-character document. -/
def docLong : Document := { doc_id := "d", title := "t", text := "abcdef".toList }

/-- 500-character text whose only space sits at index 99: 99 letters, one
space, 400 letters, no period. -/
def snippetBugText : List Char :=
  List.replicate 99 'a' ++ [' '] ++ List.replicate 400 'b'

/-- A citation whose snippet is 25 characters long but only 19 after
stripping (19 letters followed by 6 spaces), with score `0.02`. -/
def citationPadded : Citation :=
  { doc_id := "doc1", title := none, chunk_id := none,
    snippet := List.replicate 19 'a' ++ List.replicate 6 ' ',
    score := 1/50 }

/-- One Chroma result row with cosine distance 3 (an out-of-range backend
distance, to exercise the clamp). -/
def rowW : QueryRow := (['a'], none, 3, "cid")

/-- The retrieval hit `chroma_query` builds from `rowW`. -/
def hitW : RetrievalHit := rowToHit rowW

/-- A chunk-input record carrying only a chunk id. -/
def chunkInW : ChunkIn :=
  { chunk_id := some "id1", text := none, doc_id := none, title := none,
    start := none, «end» := none }

/-- An embedding backend that raises on every call. -/
def failingBackend : String → Except String (List ℚ) := fun _ => .error "API error"

/-- A concrete 32-byte digest function (constant hash). -/
def digestW : String → List Nat := fun _ => List.replicate 32 7

/-! ## Claim theorems -/

/-- C2, counterexample: with `overlap_chars = chunk_size_chars = 5` (the
"equal" case the claim says always fails) a non-blank one-character
document is returned as a single chunk and no `ConfigurationError` is
raised, because the source validates `step_size` only after the blank
check and the small-document short-circuit. -/
theorem c2_counterexample :
    chunk_document docShort 5 5 =
      .ok [{ doc_id := "d", chunk_id := "d_chunk_0", start := 0, «end» := 1,
             text := ['a'], title := "t" }] := by decide

/-- C2 (amended): with `overlap_chars ≥ chunk_size_chars`, `chunk_document`
raises the `ConfigurationError` only when the text is non-blank and longer
than `chunk_size_chars`; blank text still returns the empty sequence. -/
theorem c2_amended (doc : Document) (size overlap : Nat) (h : size ≤ overlap) :
    (stripChars doc.text = [] → chunk_document doc size overlap = .ok []) ∧
    (stripChars doc.text ≠ [] → size < doc.text.length →
      chunk_document doc size overlap =
        .error "overlap_chars must be smaller than chunk_size_chars") := by
  constructor
  · intro hb
    unfold chunk_document
    rw [if_pos hb]
  · intro hnb hlen
    unfold chunk_document
    rw [if_neg hnb, if_neg (by omega), if_pos h]

/-- C2, witness: the amended theorem applied to a blank document and to a
six-character document with `chunk_size_chars = 2 < overlap_chars = 3`. -/
theorem c2_witness :
    chunk_document docBlank 5 7 = .ok [] ∧
    chunk_document docLong 2 3 =
      .error "overlap_chars must be smaller than chunk_size_chars" :=
  ⟨(c2_amended docBlank 5 7 (by decide)).1 (by decide),
   (c2_amended docLong 2 3 (by decide)).2 (by decide) (by decide)⟩

set_option maxRecDepth 8000 in
/-- C3, failing-input evaluation: on a 500-character text whose only space
within the first 100 characters sits at index 99 (and which contains no
period), `_create_snippet` with `max_length = 100` takes the word-boundary
branch and returns `text[:99] + "..."`, a string of length 102 — more
than `max_length`, contradicting the claimed `≤ max_length` bound. -/
theorem c3_snippet_bug :
    create_snippet snippetBugText 100 = List.replicate 99 'a' ++ "...".toList ∧
    (create_snippet snippetBugText 100).length = 102 := by decide

/-- C4, counterexample: `upsert_chunks` with an empty chunk list and a
one-element embedding list has mismatched lengths yet returns silently
(no `ValidationError`), because `if not chunks or not embeddings` returns
before the length check. -/
theorem c4_counterexample :
    ([] : List ChunkIn).length ≠ [[(1 : ℚ)]].length ∧
    upsert_chunks ([] : List ChunkIn) [[(1 : ℚ)]] [] = (.ok (), []) := by
  exact ⟨by decide, rfl⟩

/-- C4 (amended): when both lists are non-empty and their lengths differ,
`upsert_chunks` always fails with the `ValidationError` and never
partially writes — the resulting store is exactly the input store. -/
theorem c4_amended (chunks : List ChunkIn) (embeddings : List (List ℚ))
    (store : Store) (hc : chunks ≠ []) (he : embeddings ≠ [])
    (hlen : chunks.length ≠ embeddings.length) :
    upsert_chunks chunks embeddings store =
      (.error (mismatchMsg chunks.length embeddings.length), store) := by
  unfold upsert_chunks
  rw [if_neg (not_or.mpr ⟨hc, he⟩), if_pos hlen]

/-- C4, witness: one chunk against two embeddings fails with the exact
mismatch message and leaves a store unchanged. -/
theorem c4_witness :
    upsert_chunks [chunkInW] [[(1 : ℚ)], [(2 : ℚ)]] [] =
      (.error (mismatchMsg 1 2), []) :=
  c4_amended [chunkInW] [[(1 : ℚ)], [(2 : ℚ)]] [] (by decide) (by decide)
    (by decide)

/-- C7, counterexample: a citation whose snippet has raw length 25 (19
letters plus 6 trailing spaces), non-blank text, and score `0.02 ≥ 0.01`
is nevertheless excluded, because the length check of the source applies
to the stripped snippet (19 characters < 20). -/
theorem c7_counterexample :
    citationPadded.snippet.length = 25 ∧
    stripChars citationPadded.snippet ≠ [] ∧
    (1/100 : ℚ) ≤ citationPadded.score ∧
    filter_meaningful_citations (1/100) [citationPadded] = [] := by
  have h1 : ¬(stripChars citationPadded.snippet = []) := by decide
  have h2 : ¬(citationPadded.score < 1/100) := by norm_num [citationPadded]
  have h3 : (stripChars citationPadded.snippet).length < 20 := by decide
  refine ⟨by decide, h1, by norm_num [citationPadded], ?_⟩
  simp only [filter_meaningful_citations]
  rw [if_neg h1, if_neg h2, if_pos h3]

/-- C7 (amended): `_filter_meaningful_citations` returns exactly the
subsequence, in input order, of citations whose stripped snippet is
non-empty and at least 20 characters long and whose score is at least
`min_score` (so a 0.005-score hit is always dropped at the default 0.01
threshold, and text length counts after stripping). -/
theorem c7_amended (minScore : ℚ) (citations : List Citation) :
    filter_meaningful_citations minScore citations =
      citations.filter (meaningfulKeep minScore) := by
  induction citations with
  | nil => rfl
  | cons c rest ih =>
    by_cases h1 : stripChars c.snippet = []
    · simp [filter_meaningful_citations, List.filter_cons, meaningfulKeep, h1, ih]
    · by_cases h2 : c.score < minScore
      · simp [filter_meaningful_citations, List.filter_cons, meaningfulKeep,
          h1, h2, ih]
      · by_cases h3 : (stripChars c.snippet).length < 20
        · simp [filter_meaningful_citations, List.filter_cons, meaningfulKeep,
            h1, h2, h3, ih]
        · simp [filter_meaningful_citations, List.filter_cons, meaningfulKeep,
            h1, h2, h3, ih]

/-- C8: every retrieval hit returned by the vector-store query has its
score computed as `max(0, min(1, 1 - distance))`, hence lies in
`[0, 1]`, for every query embedding, collection count and backend result
set. -/
theorem c8_score_bounds (queryEmbedding : List ℚ) (collectionCount : Option Nat)
    (rows : List QueryRow) :
    ∀ hit ∈ chroma_query queryEmbedding collectionCount rows,
      0 ≤ hit.score ∧ hit.score ≤ 1 := by
  intro hit hmem
  unfold chroma_query at hmem
  split at hmem
  · simp at hmem
  · split at hmem
    · simp at hmem
    · obtain ⟨row, _, rfl⟩ := List.mem_map.mp hmem
      refine ⟨le_max_left 0 _, max_le (by norm_num) ?_⟩
      exact min_le_left 1 _

/-- C8, witness: the bound applied to the concrete hit produced from a
backend row with out-of-range distance 3. -/
theorem c8_witness : 0 ≤ hitW.score ∧ hitW.score ≤ 1 :=
  c8_score_bounds [1] none [rowW] hitW (by simp [chroma_query, hitW])

/-- C9, counterexample: with a backend that raises on every call,
`GeminiEmbeddingsProvider.embed_texts` on a one-element input does not
fail — it returns OK with a 768-entry zero placeholder vector
substituted for the failed item, contradicting the claim that backend
failure raises a `ProviderError` and that placeholders are never
substituted. -/
theorem c9_counterexample :
    gemini_embed_texts failingBackend ["x"] =
      (.ok [List.replicate 768 (0 : ℚ)], ["x"]) := rfl

/-- C9 (amended): `GeminiEmbeddingsProvider.embed_texts` never raises:
it returns one vector per input text in order, substituting a 768-entry
zero vector for each text on which the backend raised and the backend
result otherwise; the empty input list yields `[]` with no backend
invocation, and `FakeEmbeddingsProvider.embed_texts` likewise returns
`[]` on empty input. -/
theorem c9_amended (backend : String → Except String (List ℚ))
    (texts : List String) :
    (∀ digest dim, fake_embed_texts digest dim [] = []) ∧
    (texts = [] → gemini_embed_texts backend texts = (.ok [], [])) ∧
    ∃ vecs, (gemini_embed_texts backend texts).1 = .ok vecs ∧
      vecs.length = texts.length ∧
      (∀ (i : Nat) (t : String), texts[i]? = some t →
        (∀ e, backend t = .error e →
          vecs[i]? = some (List.replicate 768 (0 : ℚ))) ∧
        (∀ v, backend t = .ok v → vecs[i]? = some v)) := by
  refine ⟨fun digest dim => rfl, ?_, ?_⟩
  · intro h
    subst h
    rfl
  by_cases h : texts = []
  · subst h
    refine ⟨[], rfl, rfl, ?_⟩
    intro i t ht
    simp at ht
  · refine ⟨texts.map fun t =>
        match backend t with
        | .ok v => v
        | .error _ => List.replicate 768 (0 : ℚ), ?_, List.length_map _ _, ?_⟩
    · unfold gemini_embed_texts
      rw [if_neg h]
    · intro i t ht
      constructor
      · intro e he
        rw [List.getElem?_map, ht, Option.map_some', he]
      · intro v hv
        rw [List.getElem?_map, ht, Option.map_some', hv]

/-- C9, witness: the amended theorem instantiated with the failing
backend and the one-element input list. -/
theorem c9_witness :
    (∀ digest dim, fake_embed_texts digest dim [] = []) ∧
    (["x"] = ([] : List String) →
      gemini_embed_texts failingBackend ["x"] = (.ok [], [])) ∧
    ∃ vecs, (gemini_embed_texts failingBackend ["x"]).1 = .ok vecs ∧
      vecs.length = ["x"].length ∧
      (∀ (i : Nat) (t : String), ["x"][i]? = some t →
        (∀ e, failingBackend t = .error e →
          vecs[i]? = some (List.replicate 768 (0 : ℚ))) ∧
        (∀ v, failingBackend t = .ok v → vecs[i]? = some v)) :=
  c9_amended failingBackend ["x"]

/-- C6: a blank or whitespace-only question (the empty string included)
makes `ask` return the fixed "please provide a specific question"
fallback with empty citations and an empty capability-call log — the
vector search, prompt builder and LLM are never invoked, whatever their
behaviour would have been. -/
theorem c6_blank_question (question : List Char)
    (retrieval : Except String (List (LCDocument × ℚ)))
    (promptRes : Except String (List Char))
    (llmRes : Except String LLMResponse)
    (uncaught : Option String)
    (hq : stripChars question = []) :
    ask question retrieval promptRes llmRes uncaught =
      ({ answer := blankQuestionAnswer, citations := [] }, []) := by
  unfold ask
  rw [if_pos hq]

/-- C6, witness: the empty question with every capability failing. -/
theorem c6_witness :
    ask [] (.error "x") (.error "y") (.error "z") (some "w") =
      ({ answer := blankQuestionAnswer, citations := [] }, []) :=
  c6_blank_question [] (.error "x") (.error "y") (.error "z") (some "w") rfl

/-- C5: whenever any step of `ask` fails — the retrieval capability, the
prompt builder, the LLM call, or any other exception inside the
orchestrator body — the caller still receives a well-formed
`{answer, citations}` result whose answer is one of the fixed fallback
strings and whose citations are empty; no exception propagates (the
model of `ask` is total, mirroring the outer `except Exception`
boundary). -/
theorem c5_error_boundary (question : List Char)
    (retrieval : Except String (List (LCDocument × ℚ)))
    (promptRes : Except String (List Char))
    (llmRes : Except String LLMResponse)
    (uncaught : Option String)
    (hfail : (∃ e, retrieval = .error e) ∨ (∃ e, promptRes = .error e) ∨
      (∃ e, llmRes = .error e) ∨ (∃ e, uncaught = some e)) :
    (ask question retrieval promptRes llmRes uncaught).1.citations = [] ∧
    (ask question retrieval promptRes llmRes uncaught).1.answer ∈
      fallbackAnswers := by
  unfold ask
  by_cases hq : stripChars question = []
  · rw [if_pos hq]
    exact ⟨rfl, by simp [fallbackAnswers]⟩
  · rw [if_neg hq]
    cases uncaught with
    | some e => exact ⟨rfl, by simp [fallbackAnswers]⟩
    | none =>
      cases retrieval with
      | error e =>
        dsimp only
        by_cases hsub : (lowerContains e "does not exist" ||
            lowerContains e "not found" || lowerContains e "empty") = true
        · rw [if_pos hsub]
          exact ⟨rfl, by simp [fallbackAnswers]⟩
        · rw [if_neg hsub]
          exact ⟨rfl, by simp [fallbackAnswers]⟩
      | ok docsWithScores =>
        dsimp only
        by_cases hm : filter_meaningful_citations (1/100)
            (docsWithScores.map fun d => convert_doc_to_citation d.1 d.2) = []
        · rw [if_pos hm]
          exact ⟨rfl, by simp [fallbackAnswers]⟩
        · rw [if_neg hm]
          cases promptRes with
          | error e => exact ⟨rfl, by simp [fallbackAnswers]⟩
          | ok prompt =>
            cases llmRes with
            | error e => exact ⟨rfl, by simp [fallbackAnswers]⟩
            | ok resp =>
              rcases hfail with ⟨e, he⟩ | ⟨e, he⟩ | ⟨e, he⟩ | ⟨e, he⟩
              · exact Except.noConfusion he
              · exact Except.noConfusion he
              · exact Except.noConfusion he
              · exact Option.noConfusion he

/-- C5, witness: a failing retrieval capability with a non-blank question
yields empty citations and a fallback answer. -/
theorem c5_witness :
    (ask ['a'] (.error "boom") (.ok []) (.ok ⟨none, none, []⟩) none).1.citations
        = [] ∧
    (ask ['a'] (.error "boom") (.ok []) (.ok ⟨none, none, []⟩) none).1.answer ∈
      fallbackAnswers :=
  c5_error_boundary ['a'] (.error "boom") (.ok []) (.ok ⟨none, none, []⟩) none
    (Or.inl ⟨"boom", rfl⟩)

/-- C10: the fake embeddings provider is deterministic and
dimension-consistent: for every 32-byte digest function, `embed_query`
(and hence each element of `embed_texts`) returns exactly
`embedding_dim` entries, each in `[-1, 1]`; equal input text gives equal
vectors; and `embed_texts` returns one vector per input text, in order. -/
theorem c10_fake_provider (digest : String → List Nat) (dim : Nat)
    (hlen : ∀ s, (digest s).length = 32)
    (hbyte : ∀ s, ∀ b ∈ digest s, b ≤ 255)
    (text : String) (texts : List String) :
    (fake_embed_query digest dim text).length = dim ∧
    (∀ v ∈ fake_embed_query digest dim text, -1 ≤ v ∧ v ≤ 1) ∧
    (∀ t₂, text = t₂ →
      fake_embed_query digest dim text = fake_embed_query digest dim t₂) ∧
    fake_embed_texts digest dim texts = texts.map (fake_embed_query digest dim) ∧
    (∀ emb ∈ fake_embed_texts digest dim texts, emb.length = dim) := by
  have hq : ∀ t : String, (fake_embed_query digest dim t).length = dim := by
    intro t
    unfold fake_embed_query fake_text_to_embedding
    rw [List.length_map, List.length_range]
  have hmapeq : fake_embed_texts digest dim texts =
      texts.map (fake_embed_query digest dim) := by
    unfold fake_embed_texts
    by_cases h : texts = []
    · subst h; rfl
    · rw [if_neg h]; rfl
  refine ⟨hq text, ?_, fun t₂ ht => by rw [ht], hmapeq, ?_⟩
  · intro v hv
    unfold fake_embed_query fake_text_to_embedding at hv
    obtain ⟨i, _, rfl⟩ := List.mem_map.mp hv
    set b := (digest text).getD (i % (digest text).length) 0 with hb
    have hmem : b ∈ digest text := by
      have hpos : 0 < (digest text).length := by rw [hlen]; omega
      have hidx : i % (digest text).length < (digest text).length :=
        Nat.mod_lt _ hpos
      rw [hb, List.getD_eq_getElem _ _ hidx]
      exact List.getElem_mem _
    have h0 : (0 : ℚ) ≤ (b : ℚ) := Nat.cast_nonneg b
    have h255 : (b : ℚ) ≤ 255 := by
      exact_mod_cast hbyte text b hmem
    have hd0 : (0 : ℚ) ≤ (b : ℚ) / 255 := by positivity
    have hd1 : (b : ℚ) / 255 ≤ 1 := by
      rw [div_le_one (by norm_num)]
      exact h255
    constructor <;> nlinarith [hd0, hd1]
  · intro emb hemb
    rw [hmapeq] at hemb
    obtain ⟨t, _, rfl⟩ := List.mem_map.mp hemb
    exact hq t

/-- C10, witness: the constant 32-byte digest, dimension 3, and a
two-text batch. -/
theorem c10_witness :
    (fake_embed_query digestW 3 "a").length = 3 ∧
    (∀ v ∈ fake_embed_query digestW 3 "a", -1 ≤ v ∧ v ≤ 1) ∧
    (∀ t₂, "a" = t₂ →
      fake_embed_query digestW 3 "a" = fake_embed_query digestW 3 t₂) ∧
    fake_embed_texts digestW 3 ["a", "b"] =
      ["a", "b"].map (fake_embed_query digestW 3) ∧
    (∀ emb ∈ fake_embed_texts digestW 3 ["a", "b"], emb.length = 3) :=
  c10_fake_provider digestW 3 (fun s => by simp [digestW])
    (fun s b hb => by
      simp only [digestW, List.mem_replicate] at hb
      omega)
    "a" ["a", "b"]

/-- If stripping a string gives the empty string, every character of the
string is whitespace. -/
lemma stripChars_all_ws {s : List Char} (h : stripChars s = []) :
    ∀ c ∈ s, c.isWhitespace := by
  unfold stripChars at h
  rw [List.reverse_eq_nil_iff, List.dropWhile_eq_nil_iff] at h
  intro c hc
  have hsplit := List.takeWhile_append_dropWhile Char.isWhitespace s
  rw [← hsplit] at hc
  rcases List.mem_append.mp hc with h1 | h2
  · exact List.mem_takeWhile_imp h1
  · exact h c (List.mem_reverse.mpr h2)

/-- A string containing a non-whitespace character does not strip to the
empty string. -/
lemma stripChars_ne_nil_of_mem {s : List Char} {c : Char} (hc : c ∈ s)
    (hw : ¬ c.isWhitespace) : stripChars s ≠ [] :=
  fun h => hw (stripChars_all_ws h c hc)

/-- Shape invariant of the chunking loop: every emitted chunk records a
window start reached from `start` by whole steps, the window end
`min (start + size) len`, the stripped window text (non-empty), a start
inside the text, and the ambient document id and title. -/
lemma chunkLoop_mem (text : List Char) (docId title : String) (size step : Nat) :
    ∀ (fuel start idx : Nat), text.length - start ≤ fuel →
      ∀ c ∈ chunkLoop text docId title size step start idx,
        (∃ m, c.start = start + m * step) ∧
        c.«end» = min (c.start + size) text.length ∧
        c.text = stripChars ((text.drop c.start).take size) ∧
        c.text ≠ [] ∧ c.start < text.length ∧
        c.doc_id = docId ∧ c.title = title := by
  intro fuel
  induction fuel with
  | zero =>
    intro start idx hle c hc
    rw [chunkLoop, dif_neg (by omega : ¬(start < text.length ∧ 0 < step))] at hc
    simp at hc
  | succ n ih =>
    intro start idx hle c hc
    rw [chunkLoop] at hc
    by_cases hg : start < text.length ∧ 0 < step
    · rw [dif_pos hg] at hc
      by_cases he : min (start + size) text.length < text.length
      · rw [if_pos he] at hc
        by_cases hct : stripChars ((text.drop start).take size) = []
        · rw [if_pos hct] at hc
          obtain ⟨⟨m, hm⟩, rest⟩ := ih (start + step) idx (by omega) c hc
          exact ⟨⟨m + 1, by rw [hm]; ring⟩, rest⟩
        · rw [if_neg hct] at hc
          rcases List.mem_cons.mp hc with rfl | htail
          · refine ⟨⟨0, by simp [mkChunk]⟩, by simp [mkChunk],
              by simp [mkChunk], by simpa [mkChunk] using hct,
              by simpa [mkChunk] using hg.1, rfl, rfl⟩
          · obtain ⟨⟨m, hm⟩, rest⟩ := ih (start + step) (idx + 1) (by omega) c htail
            exact ⟨⟨m + 1, by rw [hm]; ring⟩, rest⟩
      · rw [if_neg he] at hc
        by_cases hct : stripChars ((text.drop start).take size) = []
        · rw [if_pos hct] at hc
          simp at hc
        · rw [if_neg hct] at hc
          rcases List.mem_singleton.mp hc with rfl
          refine ⟨⟨0, by simp [mkChunk]⟩, by simp [mkChunk],
            by simp [mkChunk], by simpa [mkChunk] using hct,
            by simpa [mkChunk] using hg.1, rfl, rfl⟩
    · rw [dif_neg hg] at hc
      simp at hc

/-- Chunk-id invariant of the chunking loop: the emitted chunk ids are
the consecutive ids starting at `idx` — windows dropped as blank consume
no index. -/
lemma chunkLoop_ids (text : List Char) (docId title : String) (size step : Nat) :
    ∀ (fuel start idx : Nat), text.length - start ≤ fuel →
      (chunkLoop text docId title size step start idx).map Chunk.chunk_id =
        (List.range (chunkLoop text docId title size step start idx).length).map
          (fun k => mkChunkId docId (idx + k)) := by
  intro fuel
  induction fuel with
  | zero =>
    intro start idx hle
    rw [chunkLoop, dif_neg (by omega : ¬(start < text.length ∧ 0 < step))]
    rfl
  | succ n ih =>
    intro start idx hle
    rw [chunkLoop]
    by_cases hg : start < text.length ∧ 0 < step
    · rw [dif_pos hg]
      by_cases he : min (start + size) text.length < text.length
      · rw [if_pos he]
        by_cases hct : stripChars ((text.drop start).take size) = []
        · rw [if_pos hct]
          exact ih (start + step) idx (by omega)
        · rw [if_neg hct]
          rw [List.map_cons, List.length_cons, ih (start + step) (idx + 1) (by omega),
            List.range_succ_eq_map, List.map_cons, List.map_map]
          have hhead : (mkChunk docId title idx start
              (min (start + size) text.length)
              (stripChars ((text.drop start).take size))).chunk_id =
              mkChunkId docId (idx + 0) := by
            simp [mkChunk]
          rw [hhead]
          congr 1
          have hfun : (fun k => mkChunkId docId (idx + 1 + k)) =
              ((fun k => mkChunkId docId (idx + k)) ∘ Nat.succ) := by
            funext k
            simp only [Function.comp_apply]
            congr 1
            omega
          rw [hfun]
      · rw [if_neg he]
        by_cases hct : stripChars ((text.drop start).take size) = []
        · rw [if_pos hct]
          rfl
        · rw [if_neg hct]
          rfl
    · rw [dif_neg hg]
      rfl

/-- Coverage invariant of the chunking loop: every non-whitespace
character position at or after `start` lies inside some emitted chunk
window (a window containing it cannot strip to empty, so it is emitted). -/
lemma chunkLoop_cover (text : List Char) (docId title : String) (size step : Nat)
    (hstep : 0 < step) (hss : step ≤ size) :
    ∀ (fuel start idx p : Nat) (ch : Char), text.length - start ≤ fuel →
      start ≤ p → text[p]? = some ch → ¬ ch.isWhitespace →
      ∃ c ∈ chunkLoop text docId title size step start idx,
        c.start ≤ p ∧ p < c.«end» := by
  intro fuel
  induction fuel with
  | zero =>
    intro start idx p ch hle hsp hget hw
    have hp : p < text.length := (List.getElem?_eq_some.mp hget).1
    omega
  | succ n ih =>
    intro start idx p ch hle hsp hget hw
    have hp : p < text.length := (List.getElem?_eq_some.mp hget).1
    have hg : start < text.length ∧ 0 < step := ⟨by omega, hstep⟩
    rw [chunkLoop, dif_pos hg]
    by_cases hpe : p < min (start + size) text.length
    · have hchmem : ch ∈ (text.drop start).take size := by
        have h1 : ((text.drop start).take size)[p - start]? =
            (text.drop start)[p - start]? := by
          rw [List.getElem?_take, if_pos (by omega : p - start < size)]
        have h2 : (text.drop start)[p - start]? = text[start + (p - start)]? :=
          List.getElem?_drop text start (p - start)
        have h3 : start + (p - start) = p := by omega
        exact List.getElem?_mem (by rw [h1, h2, h3]; exact hget)
      have hct : stripChars ((text.drop start).take size) ≠ [] :=
        stripChars_ne_nil_of_mem hchmem hw
      by_cases he : min (start + size) text.length < text.length
      · rw [if_pos he, if_neg hct]
        exact ⟨mkChunk docId title idx start (min (start + size) text.length)
            (stripChars ((text.drop start).take size)),
          List.mem_cons_self _ _,
          by simpa [mkChunk] using hsp, by simpa [mkChunk] using hpe⟩
      · rw [if_neg he, if_neg hct]
        exact ⟨mkChunk docId title idx start (min (start + size) text.length)
            (stripChars ((text.drop start).take size)),
          List.mem_singleton.mpr rfl,
          by simpa [mkChunk] using hsp, by simpa [mkChunk] using hpe⟩
    · have hminlt : min (start + size) text.length < text.length := by omega
      rw [if_pos hminlt]
      by_cases hct : stripChars ((text.drop start).take size) = []
      · rw [if_pos hct]
        exact ih (start + step) idx p ch (by omega) (by omega) hget hw
      · rw [if_neg hct]
        obtain ⟨c, hcmem, hcp⟩ :=
          ih (start + step) (idx + 1) p ch (by omega) (by omega) hget hw
        exact ⟨c, List.mem_cons_of_mem _ hcmem, hcp⟩

/-- C1: for a non-blank document longer than the chunk size with
`overlap < size`, `chunk_document` succeeds and the emitted chunks are
step-aligned windows `[i*step, min(i*step + size, len))` holding their
trimmed, non-empty window text; emitted chunk ids are the contiguous
`doc_chunk_0 .. doc_chunk_(N-1)`; and every non-whitespace character
position of the text is covered by some emitted chunk (coverage of
`[0, len)` modulo boundary trimming).  No window starts at or beyond
`len` — the loop, a total function here, stops once a window end reaches
`len`. -/
theorem c1_chunk_windows (doc : Document) (size overlap : Nat)
    (hov : overlap < size) (hlong : size < doc.text.length)
    (hnb : stripChars doc.text ≠ []) :
    ∃ chunks, chunk_document doc size overlap = .ok chunks ∧
      (∀ c ∈ chunks,
        (∃ i, c.start = i * (size - overlap)) ∧
        c.«end» = min (c.start + size) doc.text.length ∧
        c.text = stripChars ((doc.text.drop c.start).take size) ∧
        c.text ≠ [] ∧ c.start < doc.text.length ∧
        c.«end» ≤ doc.text.length) ∧
      chunks.map Chunk.chunk_id =
        (List.range chunks.length).map (mkChunkId doc.doc_id) ∧
      (∀ (p : Nat) (ch : Char), doc.text[p]? = some ch → ¬ ch.isWhitespace →
        ∃ c ∈ chunks, c.start ≤ p ∧ p < c.«end») := by
  refine ⟨chunkLoop doc.text doc.doc_id doc.title size (size - overlap) 0 0,
    ?_, ?_, ?_, ?_⟩
  · unfold chunk_document
    rw [if_neg hnb, if_neg (by omega), if_neg (by omega)]
  · intro c hc
    obtain ⟨⟨m, hm⟩, hend, htext, hne, hlt, _, _⟩ :=
      chunkLoop_mem doc.text doc.doc_id doc.title size (size - overlap)
        doc.text.length 0 0 (by omega) c hc
    refine ⟨⟨m, by rw [hm]; ring⟩, hend, htext, hne, hlt, ?_⟩
    rw [hend]
    exact min_le_right _ _
  · have hids := chunkLoop_ids doc.text doc.doc_id doc.title size
      (size - overlap) doc.text.length 0 0 (by omega)
    simpa using hids
  · intro p ch hget hw
    exact chunkLoop_cover doc.text doc.doc_id doc.title size (size - overlap)
      (by omega) (by omega) doc.text.length 0 0 p ch (by omega) (by omega)
      hget hw

/-- C1, witness: the six-character document `"abcdef"` with
`chunk_size_chars = 4`, `overlap_chars = 2`. -/
theorem c1_witness :
    ∃ chunks, chunk_document docLong 4 2 = .ok chunks ∧
      (∀ c ∈ chunks,
        (∃ i, c.start = i * (4 - 2)) ∧
        c.«end» = min (c.start + 4) docLong.text.length ∧
        c.text = stripChars ((docLong.text.drop c.start).take 4) ∧
        c.text ≠ [] ∧ c.start < docLong.text.length ∧
        c.«end» ≤ docLong.text.length) ∧
      chunks.map Chunk.chunk_id =
        (List.range chunks.length).map (mkChunkId docLong.doc_id) ∧
      (∀ (p : Nat) (ch : Char), docLong.text[p]? = some ch →
        ¬ ch.isWhitespace → ∃ c ∈ chunks, c.start ≤ p ∧ p < c.«end») :=
  c1_chunk_windows docLong 4 2 (by omega) (by decide) (by decide)
